import Mathlib

/-!
Verification of the LLM response pipeline of `lib/llm_client.py`.

Python strings are modelled as `List Char`; the module's string-processing
functions (`enhance_response_formatting`, `format_db_data_for_llm`,
`get_simulated_response`, `get_llm_response`) are translated line by line.
The stateful OAuth helper `get_oauth_token` is modelled with an explicit
world record (current time, token-cache file state, outcome of the network
exchange) and a result record (returned value, final file state, whether a
network exchange was attempted).  Timestamps are modelled as integers: only
ordering of `time.time()` values matters to the code.
-/

set_option autoImplicit false
set_option maxRecDepth 100000

/-! ### Basic character and list helpers -/

/-- The apostrophe character (U+0027), built numerically so that the source
file itself contains no literal apostrophe inside string literals. -/
def apos : Char := Char.ofNat 39

/-- ASCII lower-casing of one character; models CPython `str.lower` on the
ASCII range (the inputs in the claims are ASCII). -/
def lowerChar (c : Char) : Char :=
  if 65 ≤ c.toNat && c.toNat ≤ 90 then Char.ofNat (c.toNat + 32) else c

/-- `s.lower()` on a Python string. -/
def str_lower (s : List Char) : List Char := s.map lowerChar

/-- Boolean string-prefix test (`str.startswith`). -/
def isPref : List Char → List Char → Bool
  | [], _ => true
  | _ :: _, [] => false
  | a :: ps, b :: bs => a == b && isPref ps bs

/-- Boolean substring test: models the Python operator `pat in s`. -/
def occursB (pat : List Char) : List Char → Bool
  | [] => isPref pat []
  | c :: t => isPref pat (c :: t) || occursB pat t

/-- If `p` is a prefix of `s`, drop it and return the remainder. -/
def dropPre : List Char → List Char → Option (List Char)
  | [], s => some s
  | _ :: _, [] => none
  | a :: ps, b :: bs => if a == b then dropPre ps bs else none

/-- The characters matched by the regex class `\s` (ASCII range), which is
also the set stripped by Python `str.strip()` for ASCII input. -/
def pySpace (c : Char) : Bool :=
  c == ' ' || c == '\t' || c == '\n' || c == '\r' || c == '\x0b' || c == '\x0c'

/-- The characters matched by the regex class `\w` (ASCII range). -/
def pyWord (c : Char) : Bool := c.isAlphanum || c == '_'

/-- Remove trailing characters satisfying `p`. -/
def dropTrail (p : Char → Bool) (s : List Char) : List Char :=
  (s.reverse.dropWhile p).reverse

/-- Python `str.strip()` (ASCII whitespace). -/
def pyStrip (s : List Char) : List Char := dropTrail pySpace (s.dropWhile pySpace)

/-- Python `str.split("\n")`: always returns at least one piece; a trailing
newline yields a trailing empty piece. -/
def splitNL : List Char → List (List Char)
  | [] => [[]]
  | c :: t =>
    if c = '\n' then [] :: splitNL t
    else
      match splitNL t with
      | l :: ls => (c :: l) :: ls
      | [] => [[c]]

/-- Python `"\n".join(lines)`. -/
def joinNL : List (List Char) → List Char
  | [] => []
  | [l] => l
  | l :: ls => l ++ '\n' :: joinNL ls

/-! ### `enhance_response_formatting` (llm_client.py lines 217-258) -/

/-- Anchored match of the regex alternative `import\s+[\w\.]+`: the literal
`import`, at least one whitespace, then at least one word-or-dot character.
`\s` and `[\w.]` are disjoint so the greedy scan is exact. -/
def matchImport (s : List Char) : Bool :=
  match dropPre "import".data s with
  | some r =>
    match r with
    | c :: t =>
      pySpace c &&
        (match t.dropWhile pySpace with
         | d :: _ => pyWord d || d == '.'
         | [] => false)
    | [] => false
  | none => false

/-- Anchored match of `KW\s+\w+\(` for `KW` one of `def`, `class`,
`function`: keyword, whitespace, at least one word character, then `(`.
`\s`, `\w` and `(` are pairwise disjoint so the greedy scan is exact. -/
def matchDefLike (kw : List Char) (s : List Char) : Bool :=
  match dropPre kw s with
  | some r =>
    match r with
    | c :: t =>
      pySpace c &&
        (match t.dropWhile pySpace with
         | d :: u =>
           pyWord d &&
             (match u.dropWhile pyWord with
              | '(' :: _ => true
              | _ => false)
         | [] => false)
    | [] => false
  | none => false

/-- Anchored match (`re.match`) of the code-signature pattern
`(import\s+[\w\.]+|def\s+\w+\(|class\s+\w+\(|function\s+\w+\()`. -/
def matchSigAt (s : List Char) : Bool :=
  matchImport s || matchDefLike "def".data s ||
    matchDefLike "class".data s || matchDefLike "function".data s

/-- Unanchored search (`re.search`) of the code-signature pattern. -/
def containsSig : List Char → Bool
  | [] => false
  | c :: t => matchSigAt (c :: t) || containsSig t

/-- The line loop of the heuristic code-fencing pass (lines 228-243): the
accumulated `formatted_lines`, the `in_code_block` flag, and the remaining
lines.  The Python `len(formatted_lines) > 0` test is kept verbatim. -/
def wrapLoop (acc : List (List Char)) (inCode : Bool) :
    List (List Char) → List (List Char)
  | [] => if inCode then acc ++ ["```".data] else acc
  | l :: rest =>
    if matchSigAt (pyStrip l) && !inCode then
      wrapLoop (acc ++ ["```python".data, l]) true rest
    else if inCode && (pyStrip l == [] : Bool) && decide (0 < acc.length) then
      wrapLoop (acc ++ ["```".data, l]) false rest
    else
      wrapLoop (acc ++ [l]) inCode rest

/-- The whole code-fencing pass: split on newlines, run the loop, rejoin. -/
def fence_wrap (s : List Char) : List Char :=
  joinNL (wrapLoop [] false (splitNL s))

/-- One step list of the keyword-emphasis substitution
`re.sub` with pattern `(KW:)(.*?)(\n|$)`, replacement `**_\1_** \2\3` and `IGNORECASE`.
The scan is leftmost, non-overlapping, and continues after each match, as
`re.sub` does.  `.*?` with the lazy alternation `(\n|$)` always stops at the
first newline or at the end of input, so group 2 is the run of non-newline
characters after the matched `KW:` and group 3 is the newline when present.
`fuel` bounds the recursion; each step consumes at least one character, so
`fuel = s.length` is enough. -/
def kwSubFuel (pat : List Char) : Nat → List Char → List Char
  | 0, s => s
  | fuel + 1, s =>
    if isPref (str_lower pat) (str_lower s) then
      let g1 := s.take pat.length
      let r1 := s.drop pat.length
      let g2 := r1.takeWhile (fun c => !(c == '\n'))
      let r2 := r1.dropWhile (fun c => !(c == '\n'))
      match r2 with
      | '\n' :: tail =>
        "**_".data ++ g1 ++ "_** ".data ++ g2 ++ '\n' :: kwSubFuel pat fuel tail
      | _ => "**_".data ++ g1 ++ "_** ".data ++ g2 ++ kwSubFuel pat fuel r2
    else
      match s with
      | [] => []
      | c :: t => c :: kwSubFuel pat fuel t

/-- One keyword substitution pass over a whole string. -/
def kwSub (kw : List Char) (s : List Char) : List Char :=
  kwSubFuel (kw ++ [':']) s.length s

/-- The fixed keyword set of line 248, in source order. -/
def important_keywords : List (List Char) :=
  ["IMPORTANT".data, "WARNING".data, "CRITICAL".data, "NOTE".data, "CAUTION".data]

/-- The keyword-emphasis loop (lines 249-252). -/
def applyKeywords (s : List Char) : List Char :=
  important_keywords.foldl (fun acc kw => kwSub kw acc) s

/-- Anchored match of `\d+\.\s` after the first digit. -/
def numTail : List Char → Bool
  | c :: rest =>
    if c.isDigit then numTail rest
    else c == '.' && (match rest with | d :: _ => pySpace d | [] => false)
  | [] => false

/-- Anchored match of the numbered-list marker `\d+\.\s`. -/
def startsNumbered : List Char → Bool
  | c :: rest => c.isDigit && numTail rest
  | [] => false

/-- Anchored match of the bullet marker `-\s`. -/
def startsBullet : List Char → Bool
  | c :: d :: _ => c == '-' && pySpace d
  | _ => false

/-- The list-marker normalisation of lines 255-256.  The patterns are
`(?<!\n)^(\d+\.\s)` and `(?<!\n)^(-\s)` with `re.MULTILINE`: `^` matches at
position 0 and after every newline, and the negative lookbehind `(?<!\n)`
rejects every position after a newline, so each substitution can only fire
at position 0, where it prepends a newline to the matched marker. -/
def listNormalize (s : List Char) : List Char :=
  let s1 := if startsNumbered s then '\n' :: s else s
  if startsBullet s1 then '\n' :: s1 else s1

/-- `enhance_response_formatting` (lines 217-258): heuristic code fencing
when the response has no fence and the code-signature search succeeds, then
keyword emphasis, then list-marker normalisation. -/
def enhance_response_formatting (response : List Char) : List Char :=
  let r1 :=
    if !(occursB "```".data response) && containsSig response then
      fence_wrap response
    else response
  listNormalize (applyKeywords r1)

/-! ### `format_db_data_for_llm` (llm_client.py lines 138-215) -/

/-- One record of a list payload: either a dict (with the optional
`pageTitle` and `content` keys singled out, and the remaining key/value
pairs — values by their rendered form — in iteration order) or any other
value by its rendered form. -/
inductive DbItem where
  | dict (pageTitle : Option (List Char)) (content : Option (List Char))
      (extra : List (List Char × List Char))
  | other (s : List Char)

/-- The `db_data` payload: a list of records, a plain dict, or any other
value by its rendered form. -/
inductive DbData where
  | list (items : List DbItem)
  | dict (pairs : List (List Char × List Char))
  | other (s : List Char)

/-- Python truthiness of the payload (`if not db_data`): empty list, empty
dict and empty string are falsy. -/
def dbTruthy : DbData → Bool
  | .list items => !items.isEmpty
  | .dict ps => !ps.isEmpty
  | .other s => !s.isEmpty

/-- `line.strip().replace("```", "")`: remove every occurrence of the
triple backtick, scanning left to right without overlap. -/
def removeTicksFuel : Nat → List Char → List Char
  | 0, s => s
  | fuel + 1, s =>
    if isPref "```".data s then removeTicksFuel fuel (s.drop 3)
    else
      match s with
      | [] => []
      | c :: t => c :: removeTicksFuel fuel t

/-- `replace("```", "")` with adequate fuel. -/
def removeTicks (s : List Char) : List Char := removeTicksFuel s.length s

/-- The per-line code-block scan of the `content` field (lines 167-187):
`in_code_block` state plus remaining lines; every emitted piece is appended
in source order. -/
def contentLoop : Bool → List (List Char) → List Char
  | _, [] => []
  | inCode, l :: ls =>
    if isPref "```".data (pyStrip l) && !inCode then
      ("\n<CODE_BLOCK_START lang=\"".data ++ pyStrip (removeTicks (pyStrip l)) ++
        "\">\n".data) ++ l ++ '\n' :: contentLoop true ls
    else if (pyStrip l == "```".data : Bool) && inCode then
      l ++ '\n' :: "<CODE_BLOCK_END>\n\n".data ++ contentLoop false ls
    else
      l ++ '\n' :: contentLoop inCode ls

/-- The fixed preamble of `formatted_data` (lines 148-153). -/
def db_preamble : List Char :=
  "\nIMPORTANT: The following information contains code blocks that must be preserved EXACTLY as shown,\nwith their original formatting, indentation, comments, and whitespace.\n===== DATABASE INFORMATION START =====\n\n".data

/-- The `===== DATABASE INFORMATION END =====` trailer (line 207). -/
def db_end : List Char := "\n===== DATABASE INFORMATION END =====\n".data

/-- The final code-block reminder (lines 210-213). -/
def db_reminder : List Char :=
  "\nREMEMBER: When including code blocks in your response, reproduce them EXACTLY as shown above,\nwith the same formatting, indentation, comments, and whitespace. Do not modify any code.\n".data

/-- Rendering of one list item (lines 157-197); `idx` is the `enumerate`
index, used only for non-dict items. -/
def formatItem (idx : Nat) : DbItem → List Char
  | .dict pt ct extra =>
    (match pt with
     | some t => "## ".data ++ t ++ "\n\n".data
     | none => []) ++
    (match ct with
     | some c => contentLoop false (splitNL c) ++ '\n' :: []
     | none => []) ++
    extra.foldr (fun kv acc => "- ".data ++ kv.1 ++ ": ".data ++ kv.2 ++ '\n' :: acc) [] ++
    "\n---\n\n".data
  | .other s =>
    "Item ".data ++ (Nat.repr (idx + 1)).data ++ ":\n".data ++ s ++ "\n\n".data

/-- The `enumerate(db_data)` loop over list items. -/
def formatItems (idx : Nat) : List DbItem → List Char
  | [] => []
  | it :: rest => formatItem idx it ++ formatItems (idx + 1) rest

/-- `format_db_data_for_llm` (lines 138-215). -/
def format_db_data_for_llm (d : DbData) : List Char :=
  if dbTruthy d = false then []
  else
    db_preamble ++
    (match d with
     | .list items => formatItems 0 items
     | .dict pairs =>
       "Retrieved information:\n\n".data ++
         pairs.foldr (fun kv acc => "- ".data ++ kv.1 ++ ": ".data ++ kv.2 ++ '\n' :: acc) []
     | .other s => "Retrieved information:\n\n".data ++ s) ++
    db_end ++ db_reminder

/-! ### `get_simulated_response` (llm_client.py lines 260-308)

The `try` body of the function cannot raise on string inputs (`str.lower`,
substring tests and `re.sub` are total), so the `except` fallback branch of
lines 306-308 is unreachable and the model is the `try` body itself. -/

/-- Knowledge-base entry for key `avos` (line 266). -/
def kb_avos : List Char :=
  "AVOS (Autonomous Vehicle Operating System) is NVIDIA".data ++ apos ::
  "s comprehensive software stack designed for autonomous vehicles. It provides a flexible, scalable platform that integrates perception, planning, and control systems necessary for self-driving capabilities.".data

/-- Knowledge-base entry for key `drive` (line 267). -/
def kb_drive : List Char :=
  "NVIDIA DRIVE is a platform that uses AVOS and is designed for developing autonomous vehicles. It includes both hardware (like the DRIVE AGX Orin system-on-a-chip) and software components that work together to enable self-driving capabilities.".data

/-- Knowledge-base entry for key `driveos` (line 268). -/
def kb_driveos : List Char :=
  "DriveOS is the operating system layer of NVIDIA".data ++ apos ::
  "s autonomous vehicle software stack. It provides a foundation for running autonomous driving applications, managing hardware resources, and ensuring real-time performance for critical driving functions.".data

/-- Knowledge-base entry for key `ndas` (line 269). -/
def kb_ndas : List Char :=
  "NDAS (NVIDIA Data Annotation System) is a tool for labeling and annotating sensor data collected from vehicles. It helps create training datasets for machine learning models used in autonomous driving systems.".data

/-- Knowledge-base entry for key `feature` (line 270). -/
def kb_feature : List Char :=
  "AVOS includes many features such as:\n- Sensor fusion for combining data from cameras, radar, and lidar\n- Perception systems for object detection and classification\n- Planning and decision-making algorithms\n- Control systems for vehicle operation\n- Simulation capabilities for testing and validation\n- Over-the-air update functionality".data

/-- Knowledge-base entry for key `dtsi` (line 271). -/
def kb_dtsi : List Char :=
  "In the context of DriveOS, a DTSI (Device Tree Source Include) file is used to describe hardware components and their properties. The \"startupcmd\" DTSI file specifically contains commands that are executed during system startup to configure hardware components and initialize services.".data

/-- Knowledge-base entry for key `steps` (line 272). -/
def kb_steps : List Char :=
  "To integrate DriveOS changes into NDAS, you would typically follow these steps:\n1. Develop and test your changes in a DriveOS development environment\n2. Document the changes thoroughly\n3. Submit the changes through the code review process\n4. Work with the NDAS team to integrate and test the changes\n5. Monitor and validate the integration through regression testing".data

/-- Knowledge-base entry for key `secpolicy` (line 273). -/
def kb_secpolicy : List Char :=
  "AVOS Customizations for Security Policy (SecPolicy) include configurations for mounting policies and folder hierarchy support. SecPolicy files are available for both debug and production environments, typically named policy_debug_orin_gos_vm_safety.txt and policy_prod_orin_gos_vm_safety.txt respectively. The security policy enforces folder hierarchy and mounting restrictions.".data

/-- The `avos_knowledge` dict (lines 265-274) as its insertion-ordered
key/value sequence, which is also its iteration order. -/
def avos_knowledge : List (List Char × List Char) :=
  [("avos".data, kb_avos), ("drive".data, kb_drive), ("driveos".data, kb_driveos),
   ("ndas".data, kb_ndas), ("feature".data, kb_feature), ("dtsi".data, kb_dtsi),
   ("steps".data, kb_steps), ("secpolicy".data, kb_secpolicy)]

/-- The default response of line 281. -/
def default_response : List Char :=
  "I don".data ++ apos ::
  "t have specific information about that aspect of AVOS. Could you ask something more general about AVOS capabilities or features?".data

/-- The probe substring of line 290. -/
def no_info_probe : List Char :=
  "I don".data ++ apos :: "t have specific information".data

/-- Head of the context-based message of line 291. -/
def ctx_msg_head : List Char := "Based on the available information: ".data

/-- Tail of the context-based message of line 291. -/
def ctx_msg_tail : List Char :=
  "\n\nHowever, please note that this information may be limited. For more detailed information, please consult the official NVIDIA AVOS documentation.".data

/-- The first-match-wins keyword scan of lines 284-287: `keyword.lower()`
tested as a substring of the lowered prompt, stopping at the first hit. -/
def kbLookup : List (List Char × List Char) → List Char → List Char → List Char
  | [], _, cur => cur
  | kv :: rest, pl, cur =>
    if occursB (str_lower kv.1) pl then kv.2 else kbLookup rest pl cur

/-- The response selected by `get_simulated_response` before the final
`enhance_response_formatting` call (lines 277-304). -/
def simulated_core (prompt context : List Char) : List Char :=
  let pl := str_lower prompt
  let r1 := kbLookup avos_knowledge pl default_response
  let r2 :=
    if !context.isEmpty && occursB no_info_probe r1 then
      ctx_msg_head ++ context ++ ctx_msg_tail
    else r1
  let r3 :=
    if occursB "driveos".data pl && occursB "ndas".data pl then kb_steps else r2
  let r4 :=
    if occursB "dtsi".data pl && occursB "startupcmd".data pl then kb_dtsi else r3
  if occursB "secpolicy".data pl ||
      (occursB "security".data pl && occursB "policy".data pl) then kb_secpolicy
  else r4

/-- `get_simulated_response` (lines 260-308). -/
def get_simulated_response (prompt context : List Char) : List Char :=
  enhance_response_formatting (simulated_core prompt context)

/-! ### `get_llm_response` (llm_client.py lines 310-384)

The external world of one call: whether the optional dependencies imported
(`DEPENDENCIES_INSTALLED`), whether `get_azure_client()` produced a client,
and the outcome of the chat-completion call — `some s` for a successful
call answering content `s`, `none` when the client was unavailable is
irrelevant and when the API block raised (both fall through to the
simulated response).  Message assembly (system prompt, history JSON,
context message) only shapes the outbound request and cannot raise: the
history parse is wrapped in its own `try`, and `get_default_system_prompt`
is `@safe_response`-wrapped, so none of it affects the returned string and
it is elided from the model. -/
structure LlmEnv where
  deps : Bool
  client : Bool
  apiContent : Option (List Char)

/-- The context-merging step of lines 315-320. -/
def merged_context (context : List Char) (db_data : Option DbData) : List Char :=
  match db_data with
  | some d =>
    if dbTruthy d then
      if !context.isEmpty then context ++ "\n\n".data ++ format_db_data_for_llm d
      else format_db_data_for_llm d
    else context
  | none => context

/-- The outermost apology of line 384 (returned only when an unexpected
error escapes the inner handlers; unreachable for the modelled paths). -/
def critical_apology : List Char :=
  "I apologize for the inconvenience, but I".data ++ apos ::
  "m experiencing technical difficulties. Please try again later.".data

/-- `get_llm_response` (lines 310-384).  Every exception path of the source
is caught internally, so the model is a total function: a successful API
call returns the enhanced content; every other path returns the simulated
response on the merged context.  `system_prompt` and
`conversation_history_json` shape only the outbound request. -/
def get_llm_response (env : LlmEnv)
    (prompt context system_prompt conversation_history_json : List Char)
    (db_data : Option DbData) : List Char :=
  let ctx := merged_context context db_data
  if env.deps && env.client then
    match env.apiContent with
    | some s => enhance_response_formatting s
    | none => get_simulated_response prompt ctx
  else
    get_simulated_response prompt ctx

/-! ### `get_oauth_token` (llm_client.py lines 67-111) -/

/-- A parsed token-cache record / token-endpoint JSON body.  The three
fields the code inspects are singled out; `extra` carries every other field
untouched.  Numeric fields are integers in the model (only the ordering of
timestamps matters). -/
structure TokenRecord where
  access_token : Option (List Char)
  expires_in : Option Int
  created_at : Option Int
  extra : List (List Char × List Char)

/-- State of the cache file `py_llm_oauth_token.json`: missing, present but
raising on open/parse, or present with a parsed record. -/
inductive CacheState where
  | absent
  | unreadable
  | record (t : TokenRecord)

/-- The world of one `get_oauth_token` call: the current `time.time()`, the
cache-file state, the outcome of the `requests.request` + `response.json()`
exchange, and `DEPENDENCIES_INSTALLED`. -/
structure OauthWorld where
  now : Int
  cache : CacheState
  exchange : Except Unit TokenRecord
  deps : Bool

/-- Result of one call: the returned value, the final cache-file state, and
whether the network exchange was attempted. -/
structure OauthResult where
  ret : Option (List Char)
  cache : CacheState
  exchanged : Bool

/-- Lines 92-108: the exchange, the `created_at` stamp, the cache-file
write, and the final `token["access_token"]` read.  A failing exchange
raises before the write (caught at line 109, returning `None`); a missing
`access_token` key raises only after the file has been overwritten. -/
def doExchange (w : OauthWorld) : OauthResult :=
  match w.exchange with
  | .error _ => ⟨none, w.cache, true⟩
  | .ok t =>
    let t2 : TokenRecord :=
      ⟨t.access_token, t.expires_in, some w.now, t.extra⟩
    match t2.access_token with
    | some a => ⟨some a, .record t2, true⟩
    | none => ⟨none, .record t2, true⟩

/-- `get_oauth_token` (lines 67-111).  The single `try` of lines 80-108
wraps both the cache read and the exchange: a raising cache read is caught
at line 109 and returns `None` without attempting the exchange.  A cached
record with both `expires_in` and `created_at` and `now < created_at +
expires_in` is served from cache (raising `KeyError` → `None` if it lacks
`access_token`); otherwise the exchange runs. -/
def get_oauth_token (w : OauthWorld) : OauthResult :=
  if w.deps = false then ⟨none, w.cache, false⟩
  else
    match w.cache with
    | .unreadable => ⟨none, w.cache, false⟩
    | .absent => doExchange w
    | .record t =>
      match t.expires_in, t.created_at with
      | some e, some c =>
        if w.now < c + e then
          match t.access_token with
          | some a => ⟨some a, w.cache, false⟩
          | none => ⟨none, w.cache, false⟩
        else doExchange w
      | _, _ => doExchange w

/-- Concatenation of lines, each followed by a newline: the shape in which
the `content` scan of `format_db_data_for_llm` emits pass-through lines. -/
def emitLines (ls : List (List Char)) : List Char :=
  ls.foldr (fun l acc => l ++ '\n' :: acc) []

/-! ### General lemmas about the string helpers -/

lemma isPref_append_self (A B : List Char) : isPref A (A ++ B) = true := by
  induction A with
  | nil => rfl
  | cons a as ih => simp [isPref, ih]

lemma isPref_trans {a b c : List Char} (h1 : isPref a b = true)
    (h2 : isPref b c = true) : isPref a c = true := by
  induction a generalizing b c with
  | nil => rfl
  | cons x xs ih =>
    cases b with
    | nil => simp [isPref] at h1
    | cons y ys =>
      cases c with
      | nil => simp [isPref] at h2
      | cons z zs =>
        simp only [isPref, Bool.and_eq_true, beq_iff_eq] at h1 h2 ⊢
        exact ⟨h1.1.trans h2.1, ih h1.2 h2.2⟩

lemma occursB_mono {p q : List Char} (hpq : isPref p q = true) {s : List Char}
    (h : occursB q s = true) : occursB p s = true := by
  induction s with
  | nil => exact isPref_trans hpq h
  | cons c t ih =>
    simp only [occursB, Bool.or_eq_true] at h ⊢
    rcases h with h | h
    · exact Or.inl (isPref_trans hpq h)
    · exact Or.inr (ih h)

lemma isPref_split (pat : List Char) : ∀ (d B : List Char),
    isPref pat (d ++ B) = true → isPref d pat = true ∨ isPref pat d = true := by
  induction pat with
  | nil => intro d B _; right; rfl
  | cons p ps ih =>
    intro d B h
    cases d with
    | nil => left; rfl
    | cons x xs =>
      simp only [List.cons_append, isPref, Bool.and_eq_true, beq_iff_eq] at h
      rcases ih xs B h.2 with h2 | h2
      · left
        simp only [isPref, Bool.and_eq_true, beq_iff_eq]
        exact ⟨h.1.symm, h2⟩
      · right
        simp only [isPref, Bool.and_eq_true, beq_iff_eq]
        exact ⟨h.1, h2⟩

lemma occursB_append_none (pat : List Char) : ∀ (A B : List Char),
    occursB pat B = false →
    (∀ i, i < A.length → isPref (A.drop i) pat = false ∧ isPref pat (A.drop i) = false) →
    occursB pat (A ++ B) = false := by
  intro A
  induction A with
  | nil => intro B hB _; simpa using hB
  | cons c A' ih =>
    intro B hB hA
    have h0 := hA 0 (by simp)
    simp only [List.drop_zero] at h0
    rw [List.cons_append, occursB]
    apply Bool.or_eq_false_iff.mpr
    constructor
    · by_contra hcon
      have hcon' : isPref pat ((c :: A') ++ B) = true := by
        simpa [Bool.not_eq_false] using hcon
      rcases isPref_split pat (c :: A') B hcon' with h2 | h2
      · rw [h0.1] at h2; exact Bool.false_ne_true h2
      · rw [h0.2] at h2; exact Bool.false_ne_true h2
    · exact ih B hB (fun i hi => by
        have := hA (i + 1) (by simpa using Nat.succ_lt_succ hi)
        simpa using this)

lemma isPref_snoc (pat : List Char) (c : Char) (hc : c ∉ pat) :
    ∀ (Z : List Char), isPref pat (Z ++ [c]) = true → isPref pat Z = true := by
  induction pat with
  | nil => intro Z _; rfl
  | cons p ps ih =>
    intro Z h
    cases Z with
    | nil =>
      simp only [List.nil_append, isPref, Bool.and_eq_true, beq_iff_eq] at h
      exact absurd (h.1 ▸ List.mem_cons_self p ps) hc
    | cons z zs =>
      simp only [List.cons_append, isPref, Bool.and_eq_true, beq_iff_eq] at h ⊢
      exact ⟨h.1, ih (fun hm => hc (List.mem_cons_of_mem _ hm)) zs h.2⟩

lemma occursB_snoc (pat : List Char) (c : Char) (hc : c ∉ pat) :
    ∀ (X : List Char), occursB pat X = false → occursB pat (X ++ [c]) = false := by
  intro X
  induction X with
  | nil =>
    intro hX
    have hX' : isPref pat [] = false := hX
    rw [List.nil_append]
    cases pat with
    | nil => simp [isPref] at hX'
    | cons p ps =>
      rw [occursB]
      apply Bool.or_eq_false_iff.mpr
      refine ⟨?_, hX⟩
      by_contra hcon
      have hcon' : isPref (p :: ps) ([] ++ [c]) = true := by
        simpa [Bool.not_eq_false] using hcon
      have := isPref_snoc (p :: ps) c hc [] hcon'
      rw [hX'] at this; exact Bool.false_ne_true this
  | cons x X' ih =>
    intro hX
    rw [occursB] at hX
    rcases Bool.or_eq_false_iff.mp hX with ⟨hX1, hX2⟩
    rw [List.cons_append, occursB]
    apply Bool.or_eq_false_iff.mpr
    refine ⟨?_, ih hX2⟩
    by_contra hcon
    have hcon' : isPref pat ((x :: X') ++ [c]) = true := by
      simpa [Bool.not_eq_false] using hcon
    have := isPref_snoc pat c hc (x :: X') hcon'
    rw [hX1] at this; exact Bool.false_ne_true this

lemma splitNL_ne_nil (s : List Char) : splitNL s ≠ [] := by
  cases s with
  | nil => simp [splitNL]
  | cons c t =>
    by_cases h : c = '\n'
    · simp [splitNL, h]
    · simp only [splitNL, if_neg h]
      cases splitNL t <;> simp

lemma joinNL_splitNL (s : List Char) : joinNL (splitNL s) = s := by
  induction s with
  | nil => rfl
  | cons c t ih =>
    by_cases h : c = '\n'
    · subst h
      rw [splitNL, if_pos rfl]
      rcases hL : splitNL t with _ | ⟨l, ls⟩
      · exact absurd hL (splitNL_ne_nil t)
      · rw [hL] at ih
        cases ls with
        | nil =>
          simp only [joinNL] at ih ⊢
          rw [ih, List.nil_append]
        | cons l2 ls2 =>
          simp only [joinNL] at ih ⊢
          rw [ih, List.nil_append]
    · rw [splitNL, if_neg h]
      rcases hL : splitNL t with _ | ⟨l, ls⟩
      · exact absurd hL (splitNL_ne_nil t)
      · rw [hL] at ih
        cases ls with
        | nil =>
          simp only [joinNL] at ih ⊢
          rw [ih]
        | cons l2 ls2 =>
          simp only [joinNL, List.cons_append] at ih ⊢
          rw [ih]

lemma wrapLoop_copy (lines : List (List Char)) :
    ∀ acc, (∀ l ∈ lines, matchSigAt (pyStrip l) = false) →
    wrapLoop acc false lines = acc ++ lines := by
  induction lines with
  | nil => intro acc _; simp [wrapLoop]
  | cons l rest ih =>
    intro acc h
    have h1 : matchSigAt (pyStrip l) = false := h l (by simp)
    rw [wrapLoop, if_neg (by simp [h1]), if_neg (by simp)]
    rw [ih (acc ++ [l]) (fun x hx => h x (by simp [hx]))]
    simp

lemma fence_id (s : List Char)
    (h : ∀ l ∈ splitNL s, matchSigAt (pyStrip l) = false) :
    (if !(occursB "```".data s) && containsSig s then fence_wrap s else s) = s := by
  by_cases hc : (!(occursB "```".data s) && containsSig s) = true
  · rw [if_pos hc, fence_wrap, wrapLoop_copy (splitNL s) [] h, List.nil_append,
      joinNL_splitNL]
  · rw [if_neg hc]

lemma kwSubFuel_id (pat : List Char) :
    ∀ fuel (s : List Char), occursB (str_lower pat) (str_lower s) = false →
    kwSubFuel pat fuel s = s := by
  intro fuel
  induction fuel with
  | zero => intro s _; rfl
  | succ f ih =>
    intro s h
    cases s with
    | nil =>
      rw [kwSubFuel, if_neg]
      have h' : isPref (str_lower pat) (str_lower []) = false := h
      simp [h']
    | cons c t =>
      have h1 : isPref (str_lower pat) (str_lower (c :: t)) = false := by
        have := h
        rw [show str_lower (c :: t) = lowerChar c :: str_lower t from rfl, occursB] at this
        exact (Bool.or_eq_false_iff.mp this).1
      have h2 : occursB (str_lower pat) (str_lower t) = false := by
        have := h
        rw [show str_lower (c :: t) = lowerChar c :: str_lower t from rfl, occursB] at this
        exact (Bool.or_eq_false_iff.mp this).2
      rw [kwSubFuel, if_neg (by simp [h1])]
      rw [ih t h2]

lemma kwSub_id (kw s : List Char)
    (h : occursB (str_lower (kw ++ [':'])) (str_lower s) = false) : kwSub kw s = s :=
  kwSubFuel_id (kw ++ [':']) s.length s h

lemma kwSubFuel_nil (pat : List Char) (hp : pat ≠ []) (fuel : Nat) :
    kwSubFuel pat fuel [] = [] := by
  cases fuel with
  | zero => rfl
  | succ f =>
    rw [kwSubFuel, if_neg]
    rcases pat with _ | ⟨p, ps⟩
    · exact absurd rfl hp
    · simp [str_lower, isPref]

lemma take_append_cons {α : Type} (A : List α) (b : α) (R : List α) :
    (A ++ b :: R).take (A.length + 1) = A ++ [b] := by
  induction A with
  | nil => rfl
  | cons a as ih => simp [List.take, ih]

lemma drop_append_cons {α : Type} (A : List α) (b : α) (R : List α) :
    (A ++ b :: R).drop (A.length + 1) = R := by
  induction A with
  | nil => rfl
  | cons a as ih => simpa [List.drop] using ih

lemma takeWhile_all_append (p : Char → Bool) (A B : List Char)
    (h : ∀ a ∈ A, p a = true) : (A ++ B).takeWhile p = A ++ B.takeWhile p := by
  induction A with
  | nil => rfl
  | cons a as ih =>
    rw [List.cons_append, List.takeWhile_cons, if_pos (h a (by simp))]
    rw [ih (fun x hx => h x (by simp [hx]))]
    rfl

lemma dropWhile_all_append (p : Char → Bool) (A B : List Char)
    (h : ∀ a ∈ A, p a = true) : (A ++ B).dropWhile p = B.dropWhile p := by
  induction A with
  | nil => rfl
  | cons a as ih =>
    rw [List.cons_append, List.dropWhile_cons, if_pos (h a (by simp))]
    exact ih (fun x hx => h x (by simp [hx]))

lemma lowerChar_colon : lowerChar ':' = ':' := by decide

lemma kwSubFuel_head (kw kwv rest nl : List Char) (fuel : Nat)
    (hlow : str_lower kwv = str_lower kw)
    (hr : '\n' ∉ rest)
    (hnl : nl = [] ∨ nl = ['\n']) :
    kwSubFuel (kw ++ [':']) (fuel + 1) (kwv ++ ':' :: (rest ++ nl)) =
      "**_".data ++ kwv ++ [':'] ++ "_** ".data ++ rest ++ nl := by
  have hlen : kwv.length = kw.length := by
    have := congrArg List.length hlow
    simpa [str_lower] using this
  have hmatch : isPref (str_lower (kw ++ [':'])) (str_lower (kwv ++ ':' :: (rest ++ nl))) = true := by
    have e1 : str_lower (kw ++ [':']) = str_lower kw ++ [':'] := by
      simp [str_lower, lowerChar_colon]
    have e2 : str_lower (kwv ++ ':' :: (rest ++ nl)) =
        (str_lower kw ++ [':']) ++ str_lower (rest ++ nl) := by
      show List.map lowerChar (kwv ++ ':' :: (rest ++ nl)) = _
      rw [List.map_append, List.map_cons]
      rw [show List.map lowerChar kwv = str_lower kwv from rfl, hlow]
      rw [lowerChar_colon]
      simp [str_lower]
    rw [e1, e2]
    exact isPref_append_self _ _
  have hcons : ∃ c0 tl, kwv ++ ':' :: (rest ++ nl) = c0 :: tl := by
    cases kwv with
    | nil => exact ⟨':', rest ++ nl, rfl⟩
    | cons k0 kv => exact ⟨k0, kv ++ ':' :: (rest ++ nl), by simp⟩
  obtain ⟨c0, tl, hct⟩ := hcons
  rw [hct, show fuel + 1 = Nat.succ fuel from rfl, kwSubFuel.eq_3, ← hct,
    if_pos hmatch]
  have hlen2 : (kw ++ [':']).length = kwv.length + 1 := by simp [hlen]
  have htake : (kwv ++ ':' :: (rest ++ nl)).take ((kw ++ [':']).length) = kwv ++ [':'] := by
    rw [hlen2, take_append_cons]
  have hdrop : (kwv ++ ':' :: (rest ++ nl)).drop ((kw ++ [':']).length) = rest ++ nl := by
    rw [hlen2, drop_append_cons]
  have hrestp : ∀ a ∈ rest, (!(a == '\n')) = true := by
    intro a ha
    have : a ≠ '\n' := fun he => hr (he ▸ ha)
    simp [this]
  have hnilsub : kwSubFuel (kw ++ [':']) fuel [] = [] :=
    kwSubFuel_nil _ (by simp) fuel
  rcases hnl with hnl | hnl
  · subst hnl
    have htw : (rest ++ ([] : List Char)).takeWhile (fun c => !(c == '\n')) = rest := by
      rw [List.append_nil]
      conv_lhs => rw [show rest = rest ++ [] from (List.append_nil rest).symm]
      rw [takeWhile_all_append _ _ _ hrestp]
      simp
    have hdw : (rest ++ ([] : List Char)).dropWhile (fun c => !(c == '\n')) = [] := by
      rw [List.append_nil]
      conv_lhs => rw [show rest = rest ++ [] from (List.append_nil rest).symm]
      rw [dropWhile_all_append _ _ _ hrestp]
      rfl
    simp only [htake, hdrop, htw, hdw, hnilsub]
    simp
  · subst hnl
    have htw : (rest ++ ['\n']).takeWhile (fun c => !(c == '\n')) = rest := by
      rw [takeWhile_all_append _ _ _ hrestp]
      simp [List.takeWhile]
    have hdw : (rest ++ ['\n']).dropWhile (fun c => !(c == '\n')) = ['\n'] := by
      rw [dropWhile_all_append _ _ _ hrestp]
      simp [List.dropWhile]
    simp only [htake, hdrop, htw, hdw, hnilsub]
    simp

lemma isPref_cons_head_ne (pat : List Char) (c : Char) (s : List Char)
    (hne : pat ≠ []) (h : pat.head? ≠ some c) : isPref pat (c :: s) = false := by
  cases pat with
  | nil => exact absurd rfl hne
  | cons p ps =>
    have hpc : p ≠ c := fun he => h (by rw [he]; rfl)
    simp [isPref, hpc]

lemma occursB_cons_of_head_ne (pat : List Char) (c : Char) (s : List Char)
    (hne : isPref pat (c :: s) = false) (h : occursB pat s = false) :
    occursB pat (c :: s) = false := by
  rw [occursB, hne, h]
  rfl

lemma startsNumbered_nl (s : List Char) : startsNumbered ('\n' :: s) = false := by
  show ('\n'.isDigit && numTail s) = false
  rw [show '\n'.isDigit = false from by decide]
  rfl

lemma startsBullet_nl (s : List Char) : startsBullet ('\n' :: s) = false := by
  cases s with
  | nil => rfl
  | cons d t =>
    show ('\n' == '-' && pySpace d) = false
    rw [show ('\n' == '-') = false from by decide]
    rfl

lemma startsNumbered_star (s : List Char) : startsNumbered ('*' :: s) = false := by
  show ('*'.isDigit && numTail s) = false
  rw [show '*'.isDigit = false from by decide]
  rfl

lemma startsBullet_star (s : List Char) : startsBullet ('*' :: s) = false := by
  cases s with
  | nil => rfl
  | cons d t =>
    show ('*' == '-' && pySpace d) = false
    rw [show ('*' == '-') = false from by decide]
    rfl

lemma listNormalize_nl (s : List Char) : listNormalize ('\n' :: s) = '\n' :: s := by
  simp [listNormalize, startsNumbered_nl, startsBullet_nl]

lemma listNormalize_star (s : List Char) : listNormalize ('*' :: s) = '*' :: s := by
  simp [listNormalize, startsNumbered_star, startsBullet_star]

lemma listNormalize_cases (s : List Char) :
    listNormalize s = s ∨ listNormalize s = '\n' :: s := by
  by_cases h1 : startsNumbered s = true
  · right
    simp [listNormalize, h1, startsBullet_nl]
  · by_cases h2 : startsBullet s = true
    · right
      simp [listNormalize, h1, h2]
    · left
      simp [listNormalize, h1, h2]

lemma enhance_eq (s : List Char) :
    enhance_response_formatting s =
      listNormalize (applyKeywords
        (if !(occursB "```".data s) && containsSig s then fence_wrap s else s)) := rfl

lemma applyKeywords_eq (s : List Char) :
    applyKeywords s =
      kwSub "CAUTION".data (kwSub "NOTE".data (kwSub "CRITICAL".data
        (kwSub "WARNING".data (kwSub "IMPORTANT".data s)))) := rfl

lemma kwSub_head (kw kwv rest nl : List Char)
    (hlow : str_lower kwv = str_lower kw)
    (hr : '\n' ∉ rest)
    (hnl : nl = [] ∨ nl = ['\n']) :
    kwSub kw (kwv ++ ':' :: (rest ++ nl)) =
      "**_".data ++ kwv ++ [':'] ++ "_** ".data ++ rest ++ nl := by
  unfold kwSub
  have hl : (kwv ++ ':' :: (rest ++ nl)).length =
      (kwv.length + (rest ++ nl).length) + 1 := by
    simp [List.length_append]
    omega
  rw [hl]
  exact kwSubFuel_head kw kwv rest nl _ hlow hr hnl

lemma str_lower_append (A B : List Char) :
    str_lower (A ++ B) = str_lower A ++ str_lower B := by
  simp [str_lower]

lemma str_lower_cons (c : Char) (s : List Char) :
    str_lower (c :: s) = lowerChar c :: str_lower s := rfl

/-- Decomposition of the lowered input `kwv ++ ':' :: (rest ++ nl)` used to
rule out occurrences of other keyword patterns: the prefix up to and
including the colon is determined by `kw`, so a would-be occurrence either
lies in the remainder or straddles a decidably impossible boundary. -/
lemma occursB_head_block (k kw kwv rest nl : List Char)
    (hlow : str_lower kwv = str_lower kw)
    (hnl : nl = [] ∨ nl = ['\n'])
    (hrest : occursB (str_lower (k ++ [':'])) (str_lower rest) = false)
    (hnonl : '\n' ∉ str_lower (k ++ [':']))
    (hA : ∀ i, i < (str_lower kw ++ [':']).length →
      isPref ((str_lower kw ++ [':']).drop i) (str_lower (k ++ [':'])) = false ∧
      isPref (str_lower (k ++ [':'])) ((str_lower kw ++ [':']).drop i) = false) :
    occursB (str_lower (k ++ [':'])) (str_lower (kwv ++ ':' :: (rest ++ nl))) = false := by
  have e : str_lower (kwv ++ ':' :: (rest ++ nl)) =
      (str_lower kw ++ [':']) ++ (str_lower rest ++ str_lower nl) := by
    rw [show (kwv ++ ':' :: (rest ++ nl)) = kwv ++ ([':'] ++ (rest ++ nl)) by simp]
    rw [str_lower_append, str_lower_append, hlow]
    simp [str_lower, lowerChar_colon]
  rw [e]
  apply occursB_append_none _ _ _ _ hA
  rcases hnl with hnl | hnl
  · subst hnl
    simpa [str_lower] using hrest
  · subst hnl
    have : str_lower ['\n'] = ['\n'] := by decide
    rw [this]
    exact occursB_snoc _ '\n' hnonl _ hrest

/-- Same decomposition for the rewritten string
`**_ ++ kwv ++ : ++ _** ++ rest ++ nl`. -/
lemma occursB_result_block (k kw kwv rest nl : List Char)
    (hlow : str_lower kwv = str_lower kw)
    (hnl : nl = [] ∨ nl = ['\n'])
    (hrest : occursB (str_lower (k ++ [':'])) (str_lower rest) = false)
    (hnonl : '\n' ∉ str_lower (k ++ [':']))
    (hA : ∀ i, i < ("**_".data ++ str_lower kw ++ [':'] ++ "_** ".data).length →
      isPref (("**_".data ++ str_lower kw ++ [':'] ++ "_** ".data).drop i)
        (str_lower (k ++ [':'])) = false ∧
      isPref (str_lower (k ++ [':']))
        (("**_".data ++ str_lower kw ++ [':'] ++ "_** ".data).drop i) = false) :
    occursB (str_lower (k ++ [':']))
      (str_lower ("**_".data ++ kwv ++ [':'] ++ "_** ".data ++ rest ++ nl)) = false := by
  have e : str_lower ("**_".data ++ kwv ++ [':'] ++ "_** ".data ++ rest ++ nl) =
      ("**_".data ++ str_lower kw ++ [':'] ++ "_** ".data) ++
        (str_lower rest ++ str_lower nl) := by
    rw [show "**_".data ++ kwv ++ [':'] ++ "_** ".data ++ rest ++ nl =
        "**_".data ++ (kwv ++ ([':'] ++ ("_** ".data ++ (rest ++ nl)))) by simp]
    rw [str_lower_append, str_lower_append, str_lower_append, str_lower_append, hlow]
    rw [show str_lower "**_".data = "**_".data from by decide]
    rw [show str_lower "_** ".data = "_** ".data from by decide]
    rw [show str_lower [':'] = [':'] from by decide]
    simp [str_lower_append]
  rw [e]
  apply occursB_append_none _ _ _ _ hA
  rcases hnl with hnl | hnl
  · subst hnl
    simpa [str_lower] using hrest
  · subst hnl
    have : str_lower ['\n'] = ['\n'] := by decide
    rw [this]
    exact occursB_snoc _ '\n' hnonl _ hrest

/-! ### Claim C7 -/

/-- C7: for every input line of the form `KEYWORD: rest` (the keyword `kwv`
being a case-variant of one of `IMPORTANT`, `WARNING`, `CRITICAL`, `NOTE`,
`CAUTION`, the remainder `rest` free of newlines, of further keyword-colon
markers and of code-signature lines), `enhance_response_formatting`
rewrites the line into the bold-italicised prefix `**_KEYWORD:_** `
(case preserved, with the template space) followed by the remainder `rest`
verbatim, and the optional trailing newline is preserved. -/
theorem enhance_keyword_emphasis_spec (kw kwv rest nl : List Char)
    (hkw : kw ∈ important_keywords)
    (hlow : str_lower kwv = str_lower kw)
    (hr : '\n' ∉ rest)
    (hnl : nl = [] ∨ nl = ['\n'])
    (hsig : ∀ l ∈ splitNL (kwv ++ ':' :: (rest ++ nl)), matchSigAt (pyStrip l) = false)
    (hrest : ∀ k ∈ important_keywords,
      occursB (str_lower (k ++ [':'])) (str_lower rest) = false) :
    enhance_response_formatting (kwv ++ ':' :: (rest ++ nl)) =
      "**_".data ++ kwv ++ [':'] ++ "_** ".data ++ rest ++ nl := by
  have hI := hrest "IMPORTANT".data (by simp [important_keywords])
  have hW := hrest "WARNING".data (by simp [important_keywords])
  have hC := hrest "CRITICAL".data (by simp [important_keywords])
  have hN := hrest "NOTE".data (by simp [important_keywords])
  have hU := hrest "CAUTION".data (by simp [important_keywords])
  have hstar : "**_".data ++ kwv ++ [':'] ++ "_** ".data ++ rest ++ nl =
      '*' :: ("*_".data ++ kwv ++ [':'] ++ "_** ".data ++ rest ++ nl) := rfl
  rw [enhance_eq, fence_id _ hsig, applyKeywords_eq]
  simp only [important_keywords, List.mem_cons, List.not_mem_nil, or_false] at hkw
  rcases hkw with rfl | rfl | rfl | rfl | rfl
  · rw [kwSub_head "IMPORTANT".data kwv rest nl hlow hr hnl,
      kwSub_id "WARNING".data _
        (occursB_result_block "WARNING".data "IMPORTANT".data kwv rest nl hlow hnl hW
          (by decide) (by decide)),
      kwSub_id "CRITICAL".data _
        (occursB_result_block "CRITICAL".data "IMPORTANT".data kwv rest nl hlow hnl hC
          (by decide) (by decide)),
      kwSub_id "NOTE".data _
        (occursB_result_block "NOTE".data "IMPORTANT".data kwv rest nl hlow hnl hN
          (by decide) (by decide)),
      kwSub_id "CAUTION".data _
        (occursB_result_block "CAUTION".data "IMPORTANT".data kwv rest nl hlow hnl hU
          (by decide) (by decide)),
      hstar, listNormalize_star]
  · rw [kwSub_id "IMPORTANT".data _
        (occursB_head_block "IMPORTANT".data "WARNING".data kwv rest nl hlow hnl hI
          (by decide) (by decide)),
      kwSub_head "WARNING".data kwv rest nl hlow hr hnl,
      kwSub_id "CRITICAL".data _
        (occursB_result_block "CRITICAL".data "WARNING".data kwv rest nl hlow hnl hC
          (by decide) (by decide)),
      kwSub_id "NOTE".data _
        (occursB_result_block "NOTE".data "WARNING".data kwv rest nl hlow hnl hN
          (by decide) (by decide)),
      kwSub_id "CAUTION".data _
        (occursB_result_block "CAUTION".data "WARNING".data kwv rest nl hlow hnl hU
          (by decide) (by decide)),
      hstar, listNormalize_star]
  · rw [kwSub_id "IMPORTANT".data _
        (occursB_head_block "IMPORTANT".data "CRITICAL".data kwv rest nl hlow hnl hI
          (by decide) (by decide)),
      kwSub_id "WARNING".data _
        (occursB_head_block "WARNING".data "CRITICAL".data kwv rest nl hlow hnl hW
          (by decide) (by decide)),
      kwSub_head "CRITICAL".data kwv rest nl hlow hr hnl,
      kwSub_id "NOTE".data _
        (occursB_result_block "NOTE".data "CRITICAL".data kwv rest nl hlow hnl hN
          (by decide) (by decide)),
      kwSub_id "CAUTION".data _
        (occursB_result_block "CAUTION".data "CRITICAL".data kwv rest nl hlow hnl hU
          (by decide) (by decide)),
      hstar, listNormalize_star]
  · rw [kwSub_id "IMPORTANT".data _
        (occursB_head_block "IMPORTANT".data "NOTE".data kwv rest nl hlow hnl hI
          (by decide) (by decide)),
      kwSub_id "WARNING".data _
        (occursB_head_block "WARNING".data "NOTE".data kwv rest nl hlow hnl hW
          (by decide) (by decide)),
      kwSub_id "CRITICAL".data _
        (occursB_head_block "CRITICAL".data "NOTE".data kwv rest nl hlow hnl hC
          (by decide) (by decide)),
      kwSub_head "NOTE".data kwv rest nl hlow hr hnl,
      kwSub_id "CAUTION".data _
        (occursB_result_block "CAUTION".data "NOTE".data kwv rest nl hlow hnl hU
          (by decide) (by decide)),
      hstar, listNormalize_star]
  · rw [kwSub_id "IMPORTANT".data _
        (occursB_head_block "IMPORTANT".data "CAUTION".data kwv rest nl hlow hnl hI
          (by decide) (by decide)),
      kwSub_id "WARNING".data _
        (occursB_head_block "WARNING".data "CAUTION".data kwv rest nl hlow hnl hW
          (by decide) (by decide)),
      kwSub_id "CRITICAL".data _
        (occursB_head_block "CRITICAL".data "CAUTION".data kwv rest nl hlow hnl hC
          (by decide) (by decide)),
      kwSub_id "NOTE".data _
        (occursB_head_block "NOTE".data "CAUTION".data kwv rest nl hlow hnl hN
          (by decide) (by decide)),
      kwSub_head "CAUTION".data kwv rest nl hlow hr hnl,
      hstar, listNormalize_star]

/-- C7 witness: the theorem applied to the concrete line
`Warning: do not` with a trailing newline. -/
theorem enhance_keyword_emphasis_spec_witness :
    str_lower "Warning".data = str_lower "WARNING".data ∧
    enhance_response_formatting ("Warning".data ++ ':' :: (" do not".data ++ ['\n'])) =
      "**_".data ++ "Warning".data ++ [':'] ++ "_** ".data ++ " do not".data ++ ['\n'] :=
  ⟨by decide,
    enhance_keyword_emphasis_spec "WARNING".data "Warning".data " do not".data ['\n']
      (by simp [important_keywords]) (by decide) (by decide) (Or.inr rfl)
      (by decide) (by decide)⟩

/-! ### Claim C6 -/

/-- C6 counterexample: the input `NOTE: x` contains no fence marker and no
code-signature line, yet applying `enhance_response_formatting` twice does
not equal applying it once — the second pass re-matches `NOTE:` inside the
already emphasised `**_NOTE:_**` and wraps it again.  This refutes the
claim that the absence of fences and code signatures alone guarantees
idempotence. -/
theorem enhance_idempotent_cex :
    occursB "```".data "NOTE: x".data = false ∧
    (∀ l ∈ splitNL "NOTE: x".data, matchSigAt (pyStrip l) = false) ∧
    enhance_response_formatting (enhance_response_formatting "NOTE: x".data) ≠
      enhance_response_formatting "NOTE: x".data := by
  refine ⟨by decide, by decide, by decide⟩

/-- C6 (amended): `enhance_response_formatting` is idempotent on inputs
with no ``` fence marker, no line matching the code-signature pattern, and
additionally no case-insensitive occurrence of `KEYWORD:` for any of the
five emphasis keywords (the condition the counterexample shows is needed). -/
theorem enhance_idempotent_spec (s : List Char)
    (h1 : occursB "```".data s = false)
    (h2 : ∀ l ∈ splitNL s, matchSigAt (pyStrip l) = false)
    (h3 : ∀ k ∈ important_keywords,
      occursB (str_lower (k ++ [':'])) (str_lower s) = false) :
    enhance_response_formatting (enhance_response_formatting s) =
      enhance_response_formatting s := by
  have hK : applyKeywords s = s := by
    rw [applyKeywords_eq,
      kwSub_id _ _ (h3 "IMPORTANT".data (by simp [important_keywords])),
      kwSub_id _ _ (h3 "WARNING".data (by simp [important_keywords])),
      kwSub_id _ _ (h3 "CRITICAL".data (by simp [important_keywords])),
      kwSub_id _ _ (h3 "NOTE".data (by simp [important_keywords])),
      kwSub_id _ _ (h3 "CAUTION".data (by simp [important_keywords]))]
  have hE : enhance_response_formatting s = listNormalize s := by
    rw [enhance_eq, fence_id _ h2, hK]
  rcases listNormalize_cases s with hc | hc
  · rw [hE, hc, hE, hc]
  · rw [hE, hc]
    have h2' : ∀ l ∈ splitNL ('\n' :: s), matchSigAt (pyStrip l) = false := by
      intro l hl
      rw [show splitNL ('\n' :: s) = [] :: splitNL s from by simp [splitNL]] at hl
      rcases List.mem_cons.mp hl with rfl | hl
      · decide
      · exact h2 l hl
    have hne : ∀ k ∈ important_keywords, str_lower (k ++ [':']) ≠ [] ∧
        (str_lower (k ++ [':'])).head? ≠ some '\n' := by decide
    have hAK : applyKeywords ('\n' :: s) = '\n' :: s := by
      have step : ∀ k ∈ important_keywords, kwSub k ('\n' :: s) = '\n' :: s := by
        intro k hk
        apply kwSub_id
        rw [show str_lower ('\n' :: s) = '\n' :: str_lower s from by
          rw [str_lower_cons, show lowerChar '\n' = '\n' from by decide]]
        exact occursB_cons_of_head_ne _ _ _
          (isPref_cons_head_ne _ _ _ (hne k hk).1 (hne k hk).2) (h3 k hk)
      rw [applyKeywords_eq,
        step "IMPORTANT".data (by simp [important_keywords]),
        step "WARNING".data (by simp [important_keywords]),
        step "CRITICAL".data (by simp [important_keywords]),
        step "NOTE".data (by simp [important_keywords]),
        step "CAUTION".data (by simp [important_keywords])]
    rw [enhance_eq, fence_id _ h2', hAK, listNormalize_nl]

/-- C6 witness: the amended idempotence theorem applied to the concrete
input `plain text`. -/
theorem enhance_idempotent_spec_witness :
    (∀ l ∈ splitNL "plain text".data, matchSigAt (pyStrip l) = false) ∧
    enhance_response_formatting (enhance_response_formatting "plain text".data) =
      enhance_response_formatting "plain text".data :=
  ⟨by decide,
    enhance_idempotent_spec "plain text".data (by decide) (by decide) (by decide)⟩

/-! ### Lemmas about the simulated responder -/

lemma kbLookup_none : ∀ (kb : List (List Char × List Char)) (pl cur : List Char),
    (∀ kv ∈ kb, occursB (str_lower kv.1) pl = false) →
    kbLookup kb pl cur = cur := by
  intro kb
  induction kb with
  | nil => intro pl cur _; rfl
  | cons kv rest ih =>
    intro pl cur h
    rw [kbLookup, if_neg (by simp [h kv (by simp)])]
    exact ih pl cur (fun x hx => h x (by simp [hx]))

/-! ### Claim C5 -/

/-- C5 counterexample: a prompt containing both `driveos` and `ndas` but
also `dtsi` and `startupcmd` does not get the integration-steps answer —
the later DTSI special case of line 298 overrides the compound rule of
line 294, refuting the unconditional universal statement of the claim. -/
theorem simulated_compound_override_cex :
    occursB "driveos".data (str_lower "driveos ndas dtsi startupcmd".data) = true ∧
    occursB "ndas".data (str_lower "driveos ndas dtsi startupcmd".data) = true ∧
    simulated_core "driveos ndas dtsi startupcmd".data [] ≠ kb_steps := by
  refine ⟨by decide, by decide, by decide⟩

/-- C5 (amended): a prompt whose lowered text contains both `driveos` and
`ndas` gets the fixed integration-steps entry as the pre-formatting result,
provided it does not also trigger the later DTSI special case
(`dtsi` and `startupcmd` both present) or the security-policy special case
(`secpolicy`, or both `security` and `policy`), which are checked
afterwards and take precedence. -/
theorem simulated_driveos_ndas_spec (prompt context : List Char)
    (h1 : occursB "driveos".data (str_lower prompt) = true)
    (h2 : occursB "ndas".data (str_lower prompt) = true)
    (h3 : (occursB "dtsi".data (str_lower prompt) &&
           occursB "startupcmd".data (str_lower prompt)) = false)
    (h4 : occursB "secpolicy".data (str_lower prompt) = false)
    (h5 : (occursB "security".data (str_lower prompt) &&
           occursB "policy".data (str_lower prompt)) = false) :
    simulated_core prompt context = kb_steps := by
  simp only [simulated_core]
  rw [h1, h2, h3, h4, h5]
  simp

/-- C5 witness: the amended compound rule applied to a concrete prompt. -/
theorem simulated_driveos_ndas_spec_witness :
    occursB "driveos".data (str_lower "How do DriveOS changes reach NDAS".data) = true ∧
    simulated_core "How do DriveOS changes reach NDAS".data [] = kb_steps :=
  ⟨by decide,
    simulated_driveos_ndas_spec "How do DriveOS changes reach NDAS".data []
      (by decide) (by decide) (by decide) (by decide) (by decide)⟩

/-! ### Claim C10 -/

/-- C10: the keyword table is scanned in insertion order with substring
matching and first match wins; since `drive` precedes `driveos` and is a
substring of it, a prompt whose lowered text contains `driveos` (hence
necessarily `drive`) but not the earlier key `avos` and triggers no
compound rule receives the DRIVE-platform answer, never the
`driveos`-specific answer. -/
theorem simulated_drive_shadows_driveos_spec (prompt context : List Char)
    (h1 : occursB "driveos".data (str_lower prompt) = true)
    (h2 : occursB "avos".data (str_lower prompt) = false)
    (h3 : occursB "ndas".data (str_lower prompt) = false)
    (h4 : (occursB "dtsi".data (str_lower prompt) &&
           occursB "startupcmd".data (str_lower prompt)) = false)
    (h5 : occursB "secpolicy".data (str_lower prompt) = false)
    (h6 : (occursB "security".data (str_lower prompt) &&
           occursB "policy".data (str_lower prompt)) = false) :
    simulated_core prompt context = kb_drive ∧ kb_drive ≠ kb_driveos := by
  have hdrive : occursB "drive".data (str_lower prompt) = true :=
    occursB_mono (by decide) h1
  constructor
  · have hr1 : kbLookup avos_knowledge (str_lower prompt) default_response = kb_drive := by
      simp only [kbLookup, avos_knowledge]
      rw [show str_lower "avos".data = "avos".data from by decide,
        show str_lower "drive".data = "drive".data from by decide, h2, hdrive]
      simp
    simp only [simulated_core]
    rw [hr1, show occursB no_info_probe kb_drive = false from by decide,
      h1, h3, h4, h5, h6]
    simp
  · decide

/-- C10 witness: concrete prompt mentioning `driveos` only. -/
theorem simulated_drive_shadows_driveos_spec_witness :
    occursB "driveos".data (str_lower "tell me about DriveOS please".data) = true ∧
    simulated_core "tell me about DriveOS please".data [] = kb_drive :=
  ⟨by decide,
    (simulated_drive_shadows_driveos_spec "tell me about DriveOS please".data []
      (by decide) (by decide) (by decide) (by decide) (by decide) (by decide)).1⟩

/-! ### Claim C8 -/

/-- C8 counterexample: the prompt `hello` matches no knowledge-base keyword
and the context `NOTE: x` is non-empty, yet the returned message does not
contain the context verbatim — the final formatting pass rewrites the
`NOTE:` inside the embedded context, so the second half of the claim fails on
the actual return value of the function. -/
theorem simulated_context_verbatim_cex :
    (∀ kv ∈ avos_knowledge,
      occursB (str_lower kv.1) (str_lower "hello".data) = false) ∧
    "NOTE: x".data ≠ [] ∧
    occursB "NOTE: x".data
      (get_simulated_response "hello".data "NOTE: x".data) = false := by
  refine ⟨by decide, by decide, by decide⟩

/-- C8 (amended): for a prompt matching no knowledge-base keyword and
triggering no compound rule, with empty context the responder returns the
fixed default message unchanged; with non-empty context the selected
pre-formatting message embeds the context verbatim between the fixed head
and tail (the final formatting pass may further rewrite formatter triggers
inside the context, as the counterexample shows). -/
theorem simulated_default_context_spec (prompt context : List Char)
    (hk : ∀ kv ∈ avos_knowledge,
      occursB (str_lower kv.1) (str_lower prompt) = false)
    (hsec : (occursB "security".data (str_lower prompt) &&
             occursB "policy".data (str_lower prompt)) = false) :
    (context = [] → get_simulated_response prompt context = default_response) ∧
    (context ≠ [] →
      simulated_core prompt context = ctx_msg_head ++ context ++ ctx_msg_tail) := by
  have hdos : occursB "driveos".data (str_lower prompt) = false := by
    have := hk ("driveos".data, kb_driveos) (by simp [avos_knowledge])
    rwa [show str_lower "driveos".data = "driveos".data from by decide] at this
  have hdtsi : occursB "dtsi".data (str_lower prompt) = false := by
    have := hk ("dtsi".data, kb_dtsi) (by simp [avos_knowledge])
    rwa [show str_lower "dtsi".data = "dtsi".data from by decide] at this
  have hsecp : occursB "secpolicy".data (str_lower prompt) = false := by
    have := hk ("secpolicy".data, kb_secpolicy) (by simp [avos_knowledge])
    rwa [show str_lower "secpolicy".data = "secpolicy".data from by decide] at this
  have hr1 : kbLookup avos_knowledge (str_lower prompt) default_response =
      default_response := kbLookup_none _ _ _ hk
  have hcore : ∀ ctx : List Char, simulated_core prompt ctx =
      (if !ctx.isEmpty && occursB no_info_probe default_response then
        ctx_msg_head ++ ctx ++ ctx_msg_tail
      else default_response) := by
    intro ctx
    simp only [simulated_core]
    rw [hr1, hdos, hdtsi, hsecp, hsec]
    simp
  constructor
  · intro hc
    subst hc
    rw [get_simulated_response, hcore]
    simp only [List.isEmpty_nil, Bool.not_true, Bool.false_and, if_false]
    exact (by decide : enhance_response_formatting default_response = default_response)
  · intro hc
    rw [hcore]
    have h1 : context.isEmpty = false := by
      cases context with
      | nil => exact absurd rfl hc
      | cons a t => rfl
    rw [h1, show occursB no_info_probe default_response = true from by decide]
    simp

/-- C8 witness: the amended theorem at the concrete prompt `xyzzy` with
empty and with non-empty context. -/
theorem simulated_default_context_spec_witness :
    (∀ kv ∈ avos_knowledge,
      occursB (str_lower kv.1) (str_lower "xyzzy".data) = false) ∧
    get_simulated_response "xyzzy".data [] = default_response ∧
    simulated_core "xyzzy".data "ctx".data =
      ctx_msg_head ++ "ctx".data ++ ctx_msg_tail :=
  ⟨by decide,
    (simulated_default_context_spec "xyzzy".data [] (by decide) (by decide)).1 rfl,
    (simulated_default_context_spec "xyzzy".data "ctx".data (by decide)
      (by decide)).2 (by decide)⟩

/-! ### Non-emptiness of the formatting pipeline -/

lemma kwSubFuel_ne_nil (pat : List Char) (fuel : Nat) (s : List Char) (h : s ≠ []) :
    kwSubFuel pat fuel s ≠ [] := by
  cases fuel with
  | zero => exact h
  | succ f =>
    cases s with
    | nil => exact absurd rfl h
    | cons c t =>
      by_cases hm : isPref (str_lower pat) (str_lower (c :: t)) = true
      · rw [kwSubFuel.eq_3, if_pos hm]
        dsimp only
        split
        · simp [show "**_".data = '*' :: "*_".data from rfl]
        · simp [show "**_".data = '*' :: "*_".data from rfl]
      · rw [kwSubFuel.eq_3, if_neg hm]
        simp

lemma kwSub_ne_nil (kw s : List Char) (h : s ≠ []) : kwSub kw s ≠ [] :=
  kwSubFuel_ne_nil _ _ _ h

lemma applyKeywords_ne_nil (s : List Char) (h : s ≠ []) : applyKeywords s ≠ [] := by
  rw [applyKeywords_eq]
  exact kwSub_ne_nil _ _ (kwSub_ne_nil _ _ (kwSub_ne_nil _ _
    (kwSub_ne_nil _ _ (kwSub_ne_nil _ _ h))))

lemma listNormalize_ne_nil (s : List Char) (h : s ≠ []) : listNormalize s ≠ [] := by
  rcases listNormalize_cases s with hc | hc <;> rw [hc]
  · exact h
  · simp

lemma wrapLoop_extends : ∀ (lines : List (List Char)) (acc : List (List Char)) (b : Bool),
    ∃ res, wrapLoop acc b lines = acc ++ res ∧ lines.Sublist res := by
  intro lines
  induction lines with
  | nil =>
    intro acc b
    cases b
    · exact ⟨[], by simp [wrapLoop], List.Sublist.refl _⟩
    · exact ⟨["```".data], by simp [wrapLoop], by simp⟩
  | cons l rest ih =>
    intro acc b
    rw [wrapLoop]
    by_cases hc1 : (matchSigAt (pyStrip l) && !b) = true
    · rw [if_pos hc1]
      obtain ⟨res, hres, hsub⟩ := ih (acc ++ ["```python".data, l]) true
      refine ⟨["```python".data, l] ++ res, ?_, ?_⟩
      · rw [hres]; simp
      · exact List.Sublist.cons _ (List.Sublist.cons₂ _ hsub)
    · rw [if_neg hc1]
      by_cases hc2 : (b && (pyStrip l == [] : Bool) && decide (0 < acc.length)) = true
      · rw [if_pos hc2]
        obtain ⟨res, hres, hsub⟩ := ih (acc ++ ["```".data, l]) false
        exact ⟨["```".data, l] ++ res, by rw [hres]; simp,
          List.Sublist.cons _ (List.Sublist.cons₂ _ hsub)⟩
      · rw [if_neg hc2]
        obtain ⟨res, hres, hsub⟩ := ih (acc ++ [l]) b
        exact ⟨[l] ++ res, by rw [hres]; simp, List.Sublist.cons₂ _ hsub⟩

lemma joinNL_eq_nil (ls : List (List Char)) (h : joinNL ls = []) :
    ls = [] ∨ ls = [[]] := by
  match ls with
  | [] => left; rfl
  | [l] =>
    right
    rw [show joinNL [l] = l from rfl] at h
    rw [h]
  | l :: l2 :: t =>
    rw [show joinNL (l :: l2 :: t) = l ++ '\n' :: joinNL (l2 :: t) from rfl] at h
    exact absurd h (by simp)

lemma fence_wrap_ne_nil (s : List Char) (h : s ≠ []) : fence_wrap s ≠ [] := by
  rw [fence_wrap]
  obtain ⟨res, hres, hsub⟩ := wrapLoop_extends (splitNL s) [] false
  rw [hres, List.nil_append]
  intro hj
  rcases joinNL_eq_nil res hj with rfl | rfl
  · exact splitNL_ne_nil s (List.sublist_nil.mp hsub)
  · rcases hsp : splitNL s with _ | ⟨x, xs⟩
    · exact splitNL_ne_nil s hsp
    · rw [hsp] at hsub
      cases hsub with
      | cons _ h2 => simp at h2
      | cons₂ _ h2 =>
        have hxs : xs = [] := List.sublist_nil.mp h2
        subst hxs
        have hjs := joinNL_splitNL s
        rw [hsp, show joinNL [[]] = ([] : List Char) from rfl] at hjs
        exact h hjs.symm

lemma enhance_ne_nil (s : List Char) (h : s ≠ []) :
    enhance_response_formatting s ≠ [] := by
  rw [enhance_eq]
  apply listNormalize_ne_nil
  apply applyKeywords_ne_nil
  by_cases hc : (!(occursB "```".data s) && containsSig s) = true
  · rw [if_pos hc]; exact fence_wrap_ne_nil s h
  · rw [if_neg hc]; exact h

lemma kbLookup_ne_nil : ∀ (kb : List (List Char × List Char)) (pl cur : List Char),
    (∀ kv ∈ kb, kv.2 ≠ []) → cur ≠ [] → kbLookup kb pl cur ≠ [] := by
  intro kb
  induction kb with
  | nil => intro pl cur _ hcur; exact hcur
  | cons kv rest ih =>
    intro pl cur h hcur
    rw [kbLookup]
    by_cases hc : occursB (str_lower kv.1) pl = true
    · rw [if_pos hc]; exact h kv (by simp)
    · rw [if_neg hc]; exact ih pl cur (fun x hx => h x (by simp [hx])) hcur

lemma simulated_core_ne_nil (p c : List Char) : simulated_core p c ≠ [] := by
  simp only [simulated_core]
  split
  · decide
  · split
    · decide
    · split
      · decide
      · split
        · rw [show ctx_msg_head = 'B' :: "ased on the available information: ".data from rfl]
          simp
        · exact kbLookup_ne_nil _ _ _ (by decide) (by decide)

lemma get_simulated_response_ne_nil (p c : List Char) :
    get_simulated_response p c ≠ [] :=
  enhance_ne_nil _ (simulated_core_ne_nil p c)

/-! ### Claim C1 -/

lemma get_llm_response_unfold (env : LlmEnv)
    (prompt context system_prompt conversation_history_json : List Char)
    (db_data : Option DbData) :
    get_llm_response env prompt context system_prompt conversation_history_json db_data =
      if env.deps && env.client then
        match env.apiContent with
        | some s => enhance_response_formatting s
        | none => get_simulated_response prompt (merged_context context db_data)
      else get_simulated_response prompt (merged_context context db_data) := rfl

/-- C1 counterexample: with dependencies installed, a client available, and
the live API answering the empty string, `get_llm_response` returns the
empty string, refuting "always returns a non-empty string"; and when the
API block fails it returns the simulated fallback, not the fixed apology,
refuting "on any internal failure it returns a fixed apology message". -/
theorem get_llm_response_empty_api_cex :
    get_llm_response ⟨true, true, some []⟩ "q".data [] [] "[]".data none = [] ∧
    get_llm_response ⟨true, true, none⟩ "q".data [] [] "[]".data none ≠ [] ∧
    get_llm_response ⟨true, true, none⟩ "q".data [] [] "[]".data none ≠ critical_apology := by
  refine ⟨by decide, by decide, by decide⟩

/-- C1 (amended): `get_llm_response` is a total function (every exception
path of the source is caught internally, so it never raises) and returns a
non-empty string for every input, provided the live API, when it succeeds,
does not return empty content; on failure of the live path it returns the
simulated fallback response instead of propagating the error (the fixed
apology is reserved for unexpected errors escaping the outer wrapper). -/
theorem get_llm_response_nonempty (env : LlmEnv)
    (prompt context system_prompt conversation_history_json : List Char)
    (db_data : Option DbData)
    (h : ∀ s, env.apiContent = some s → s ≠ []) :
    get_llm_response env prompt context system_prompt conversation_history_json db_data ≠ [] ∧
    (env.apiContent = none →
      get_llm_response env prompt context system_prompt conversation_history_json db_data =
        get_simulated_response prompt (merged_context context db_data)) := by
  constructor
  · rw [get_llm_response_unfold]
    by_cases hd : (env.deps && env.client) = true
    · rw [if_pos hd]
      cases hapi : env.apiContent with
      | some s => exact enhance_ne_nil s (h s hapi)
      | none => exact get_simulated_response_ne_nil _ _
    · rw [if_neg hd]
      exact get_simulated_response_ne_nil _ _
  · intro hnone
    rw [get_llm_response_unfold, hnone]
    by_cases hd : (env.deps && env.client) = true
    · rw [if_pos hd]
    · rw [if_neg hd]

/-- C1 witness: the amended theorem at a concrete environment whose API
answer is the non-empty string `ok`. -/
theorem get_llm_response_nonempty_witness :
    ((⟨true, true, some "ok".data⟩ : LlmEnv).apiContent = some "ok".data) ∧
    get_llm_response ⟨true, true, some "ok".data⟩ "q".data [] [] "[]".data none ≠ [] :=
  ⟨rfl,
    (get_llm_response_nonempty ⟨true, true, some "ok".data⟩ "q".data [] [] "[]".data none
      (by intro s hs; cases hs; decide)).1⟩

/-! ### Claim C4 -/

lemma contentLoop_plain : ∀ (pres rest : List (List Char)),
    (∀ l ∈ pres, isPref "```".data (pyStrip l) = false) →
    contentLoop false (pres ++ rest) = emitLines pres ++ contentLoop false rest := by
  intro pres
  induction pres with
  | nil => intro rest _; rfl
  | cons l ps ih =>
    intro rest h
    rw [List.cons_append, contentLoop,
      if_neg (by simp [h l (by simp)]), if_neg (by simp)]
    rw [ih rest (fun x hx => h x (by simp [hx]))]
    simp [emitLines]

lemma contentLoop_body : ∀ (body : List (List Char)) (closeL : List Char)
    (posts : List (List Char)),
    (∀ l ∈ body, (pyStrip l == "```".data) = false) →
    (pyStrip closeL == "```".data) = true →
    contentLoop true (body ++ closeL :: posts) =
      emitLines body ++ closeL ++ '\n' :: "<CODE_BLOCK_END>\n\n".data ++
        contentLoop false posts := by
  intro body
  induction body with
  | nil =>
    intro closeL posts _ hclose
    rw [List.nil_append, contentLoop, if_neg (by simp), if_pos (by simp [hclose])]
    simp [emitLines]
  | cons l bs ih =>
    intro closeL posts hb hclose
    rw [List.cons_append, contentLoop, if_neg (by simp),
      if_neg (by simp [hb l (by simp)])]
    rw [ih closeL posts (fun x hx => hb x (by simp [hx])) hclose]
    simp [emitLines]

lemma formatItems_append : ∀ (A : List DbItem) (i : Nat) (B : List DbItem),
    formatItems i (A ++ B) = formatItems i A ++ formatItems (i + A.length) B := by
  intro A
  induction A with
  | nil => intro i B; simp [formatItems]
  | cons a as ih =>
    intro i B
    rw [List.cons_append, formatItems, formatItems, ih (i + 1) B]
    simp [Nat.add_assoc, Nat.add_comm 1 as.length]

/-- C4: for every list payload containing a record whose `content` holds a
Markdown-fenced code block (an opening fence line reached outside any
block, body lines that are not bare closing fences, and a bare ``` closing
line), the rendered output contains, byte-identical and in order: the
`<CODE_BLOCK_START lang="...">` marker immediately before the opening
fence line, the fence lines and the lines between them exactly as in the
input (each followed by its newline), and the `<CODE_BLOCK_END>` marker
immediately after the closing fence line. -/
theorem format_db_data_code_block_spec
    (ipre ipost : List DbItem) (pt : Option (List Char))
    (extra : List (List Char × List Char)) (c : List Char)
    (pres body posts : List (List Char)) (openL closeL : List Char)
    (hsplit : splitNL c = pres ++ openL :: (body ++ closeL :: posts))
    (hpres : ∀ l ∈ pres, isPref "```".data (pyStrip l) = false)
    (hopen : isPref "```".data (pyStrip openL) = true)
    (hbody : ∀ l ∈ body, (pyStrip l == "```".data) = false)
    (hclose : (pyStrip closeL == "```".data) = true) :
    ∃ X Y, format_db_data_for_llm
        (DbData.list (ipre ++ DbItem.dict pt (some c) extra :: ipost)) =
      X ++ ("\n<CODE_BLOCK_START lang=\"".data ++
        pyStrip (removeTicks (pyStrip openL)) ++ "\">\n".data ++
        openL ++ '\n' :: emitLines body ++ closeL ++
        '\n' :: "<CODE_BLOCK_END>\n\n".data) ++ Y := by
  have ht : dbTruthy (DbData.list (ipre ++ DbItem.dict pt (some c) extra :: ipost)) = true := by
    cases ipre <;> rfl
  have hunf : format_db_data_for_llm
      (DbData.list (ipre ++ DbItem.dict pt (some c) extra :: ipost)) =
      db_preamble ++ formatItems 0 (ipre ++ DbItem.dict pt (some c) extra :: ipost) ++
        db_end ++ db_reminder := by
    rw [format_db_data_for_llm, if_neg (by rw [ht]; simp)]
  have hopenstep : contentLoop false (openL :: (body ++ closeL :: posts)) =
      ("\n<CODE_BLOCK_START lang=\"".data ++ pyStrip (removeTicks (pyStrip openL)) ++
        "\">\n".data) ++ openL ++ '\n' :: contentLoop true (body ++ closeL :: posts) := by
    rw [contentLoop, if_pos (by simp [hopen])]
  rcases pt with _ | t
  · refine ⟨db_preamble ++ formatItems 0 ipre ++ emitLines pres,
      contentLoop false posts ++ '\n' ::
        (extra.foldr (fun kv acc => "- ".data ++ kv.1 ++ ": ".data ++ kv.2 ++ '\n' :: acc) [] ++
          ("\n---\n\n".data ++
            (formatItems (0 + ipre.length + 1) ipost ++ (db_end ++ db_reminder)))), ?_⟩
    rw [hunf, formatItems_append, formatItems]
    simp only [formatItem]
    rw [hsplit, contentLoop_plain _ _ hpres, hopenstep,
      contentLoop_body _ _ _ hbody hclose]
    simp [List.append_assoc]
  · refine ⟨db_preamble ++ formatItems 0 ipre ++
      ("## ".data ++ t ++ "\n\n".data) ++ emitLines pres,
      contentLoop false posts ++ '\n' ::
        (extra.foldr (fun kv acc => "- ".data ++ kv.1 ++ ": ".data ++ kv.2 ++ '\n' :: acc) [] ++
          ("\n---\n\n".data ++
            (formatItems (0 + ipre.length + 1) ipost ++ (db_end ++ db_reminder)))), ?_⟩
    rw [hunf, formatItems_append, formatItems]
    simp only [formatItem]
    rw [hsplit, contentLoop_plain _ _ hpres, hopenstep,
      contentLoop_body _ _ _ hbody hclose]
    simp [List.append_assoc]

/-- C4 witness: a one-record payload whose content holds a fenced python
block. -/
theorem format_db_data_code_block_spec_witness :
    splitNL "intro\n```python\nx = 1\n```\nafter".data =
      ["intro".data] ++ "```python".data ::
        (["x = 1".data] ++ "```".data :: ["after".data]) ∧
    (∃ X Y, format_db_data_for_llm
        (DbData.list [DbItem.dict (some "T".data)
          (some "intro\n```python\nx = 1\n```\nafter".data) [("url".data, "u".data)]]) =
      X ++ ("\n<CODE_BLOCK_START lang=\"".data ++
        pyStrip (removeTicks (pyStrip "```python".data)) ++ "\">\n".data ++
        "```python".data ++ '\n' :: emitLines ["x = 1".data] ++ "```".data ++
        '\n' :: "<CODE_BLOCK_END>\n\n".data) ++ Y) :=
  ⟨by decide,
    format_db_data_code_block_spec [] [] (some "T".data) [("url".data, "u".data)]
      "intro\n```python\nx = 1\n```\nafter".data
      ["intro".data] ["x = 1".data] ["after".data] "```python".data "```".data
      (by decide) (by decide) (by decide) (by decide) (by decide)⟩

/-! ### Claims C2, C3, C9 -/

/-- C2: with dependencies installed, a cached record carrying
`access_token`, `expires_in` and `created_at` with
`now < created_at + expires_in` is served from the cache with no network
exchange and no change to the cache file; when the cache is absent or the
record is expired, the credential exchange runs, `created_at` is stamped
with the current time, the cache file is overwritten with the full token
record (all other fields kept), and the new `access_token` is returned. -/
theorem get_oauth_token_cache_spec (w : OauthWorld) (t t2 : TokenRecord)
    (a a2 : List Char) (e cr : Int) :
    (w.deps = true → w.cache = .record t → t.access_token = some a →
      t.expires_in = some e → t.created_at = some cr → w.now < cr + e →
      get_oauth_token w = ⟨some a, w.cache, false⟩) ∧
    (w.deps = true →
      (w.cache = .absent ∨
        (w.cache = .record t ∧ t.expires_in = some e ∧ t.created_at = some cr ∧
          ¬ w.now < cr + e)) →
      w.exchange = .ok t2 → t2.access_token = some a2 →
      get_oauth_token w =
        ⟨some a2, .record ⟨t2.access_token, t2.expires_in, some w.now, t2.extra⟩,
          true⟩) := by
  constructor
  · intro hdeps hcache hat he hcr hlt
    simp only [get_oauth_token, hdeps, hcache, he, hcr, hat, hlt, if_true]
    simp
  · intro hdeps hcache hex hat
    rcases hcache with hc | ⟨hc, he, hcr, hlt⟩
    · simp only [get_oauth_token, doExchange, hdeps, hc, hex, hat]
      simp
    · simp only [get_oauth_token, doExchange, hdeps, hc, he, hcr, hlt, hex, hat]
      simp

/-- C2 witness: a fresh cached token is served from cache, and an absent
cache triggers the exchange, stamps and persists the record. -/
theorem get_oauth_token_cache_spec_witness :
    get_oauth_token ⟨50, .record ⟨some "tok".data, some 100, some 0, []⟩,
        .ok ⟨some "new".data, some 300, none, []⟩, true⟩ =
      ⟨some "tok".data, .record ⟨some "tok".data, some 100, some 0, []⟩, false⟩ ∧
    get_oauth_token ⟨50, .absent, .ok ⟨some "new".data, some 300, none,
        [("token_type".data, "Bearer".data)]⟩, true⟩ =
      ⟨some "new".data, .record ⟨some "new".data, some 300, some 50,
        [("token_type".data, "Bearer".data)]⟩, true⟩ :=
  ⟨(get_oauth_token_cache_spec
      ⟨50, .record ⟨some "tok".data, some 100, some 0, []⟩,
        .ok ⟨some "new".data, some 300, none, []⟩, true⟩
      ⟨some "tok".data, some 100, some 0, []⟩ ⟨some "new".data, some 300, none, []⟩
      "tok".data "new".data 100 0).1
      rfl rfl rfl rfl rfl (by norm_num),
   (get_oauth_token_cache_spec
      ⟨50, .absent, .ok ⟨some "new".data, some 300, none,
        [("token_type".data, "Bearer".data)]⟩, true⟩
      ⟨none, none, none, []⟩
      ⟨some "new".data, some 300, none, [("token_type".data, "Bearer".data)]⟩
      [] "new".data 0 0).2
      rfl (Or.inl rfl) rfl rfl⟩

/-- C3 counterexample: with an unreadable (raising) cache file and an
exchange that would succeed, `get_oauth_token` returns `None` without
attempting the exchange — the single `try` of lines 80-108 wraps the cache
read together with the exchange, so a cache-read failure is not treated as
a cache miss, refuting the claim. -/
theorem get_oauth_token_unreadable_cex :
    (get_oauth_token ⟨0, .unreadable,
        .ok ⟨some "tok".data, some 100, none, []⟩, true⟩).exchanged = false ∧
    (get_oauth_token ⟨0, .unreadable,
        .ok ⟨some "tok".data, some 100, none, []⟩, true⟩).ret = none :=
  ⟨rfl, rfl⟩

/-- C3 (amended): an I/O or parse failure while reading the cache file is
caught by the same handler as the exchange and makes `get_oauth_token`
return `None` without attempting the exchange (it is not treated as a
cache miss); a failure during the exchange itself also returns `None`
(with the exchange attempted and the cache file untouched). -/
theorem get_oauth_token_failure_spec (w : OauthWorld) :
    (w.deps = true → w.cache = .unreadable →
      get_oauth_token w = ⟨none, w.cache, false⟩) ∧
    (w.deps = true → w.cache = .absent → w.exchange = .error () →
      get_oauth_token w = ⟨none, w.cache, true⟩) := by
  constructor
  · intro hdeps hcache
    simp only [get_oauth_token, hdeps, hcache]
    simp
  · intro hdeps hcache hex
    simp only [get_oauth_token, doExchange, hdeps, hcache, hex]
    simp

/-- C3 witness: the amended behaviour at concrete worlds. -/
theorem get_oauth_token_failure_spec_witness :
    get_oauth_token ⟨0, .unreadable, .error (), true⟩ =
      ⟨none, .unreadable, false⟩ ∧
    get_oauth_token ⟨0, .absent, .error (), true⟩ = ⟨none, .absent, true⟩ :=
  ⟨(get_oauth_token_failure_spec ⟨0, .unreadable, .error (), true⟩).1 rfl rfl,
   (get_oauth_token_failure_spec ⟨0, .absent, .error (), true⟩).2 rfl rfl rfl⟩

/-- C9: when the exchange succeeds but its JSON body lacks `access_token`,
the cache file has already been overwritten with the incomplete record
(stamped with `created_at = now`) by the time the final
`token["access_token"]` read raises, so the call returns `None` while the
on-disk cache state is mutated. -/
theorem get_oauth_token_incomplete_token_spec (w : OauthWorld) (t2 : TokenRecord)
    (hdeps : w.deps = true) (hcache : w.cache = .absent)
    (hex : w.exchange = .ok t2) (hat : t2.access_token = none) :
    (get_oauth_token w).ret = none ∧
    (get_oauth_token w).cache =
      .record ⟨none, t2.expires_in, some w.now, t2.extra⟩ ∧
    (get_oauth_token w).exchanged = true := by
  simp only [get_oauth_token, doExchange, hdeps, hcache, hex, hat]
  simp

/-- C9 witness: a concrete exchange body with `expires_in` and an extra
field but no `access_token`. -/
theorem get_oauth_token_incomplete_token_spec_witness :
    (get_oauth_token ⟨5, .absent,
        .ok ⟨none, some 100, none, [("scope".data, "azureopenai".data)]⟩, true⟩).ret =
      none ∧
    (get_oauth_token ⟨5, .absent,
        .ok ⟨none, some 100, none, [("scope".data, "azureopenai".data)]⟩, true⟩).cache =
      .record ⟨none, some 100, some 5, [("scope".data, "azureopenai".data)]⟩ :=
  ⟨(get_oauth_token_incomplete_token_spec ⟨5, .absent,
      .ok ⟨none, some 100, none, [("scope".data, "azureopenai".data)]⟩, true⟩
      ⟨none, some 100, none, [("scope".data, "azureopenai".data)]⟩
      rfl rfl rfl rfl).1,
   (get_oauth_token_incomplete_token_spec ⟨5, .absent,
      .ok ⟨none, some 100, none, [("scope".data, "azureopenai".data)]⟩, true⟩
      ⟨none, some 100, none, [("scope".data, "azureopenai".data)]⟩
      rfl rfl rfl rfl).2.1⟩
